import Mathlib

/-!
Verification development for the Agent HUD relay ("gui_as_a_tool").

The repository contains two JavaScript programs concatenated in
`src/ui/dist/app.js`:

* `AgentHUDWebSocketServer` — the hub: it classifies connections via
  `register-gui` / `register-agent` messages, owns the agent registry and the
  human-input-request ledger, and fans events out to registered GUI clients.
* `AgentHUDApp` — the dashboard client: it discovers the hub by scanning
  ports 8080..8199, keeps local lists of agents / requests / content items,
  and resolves requests.

This file gives a shallow embedding of both programs.  JavaScript `Map`s are
modelled as association lists with `Map.set` / `Map.get` / `Map.delete`
semantics; `uuidv4()` is modelled as a fresh-token generator drawn from a
counter that can never collide with the demo literals (`EntityId.uuid n`
versus `EntityId.demoAgent` / `EntityId.demoRequest`); possibly-absent
JavaScript values are `Option`s, and the JS `x || d` default (which also
replaces the empty string) is `jsOr`.  The hub is a step function over an
explicit state, driven by connection / message / disconnection / demo-timer
events, so reachability is `run` over an event list.
-/

namespace AgentHud

/-- Opaque entity tokens: the two demo literals from `createDemoData` plus the
fresh tokens produced by `uuidv4()`, modelled as a counter. -/
inductive EntityId where
  | demoAgent : EntityId
  | demoRequest : EntityId
  | uuid : Nat → EntityId
deriving DecidableEq, Repr

/-- Agent record kept in `this.agents` (see `registerAgent`). -/
structure Agent where
  id : EntityId
  name : String
  status : String
  timestamp : String
deriving DecidableEq, Repr

/-- Human-input-request record kept in `this.humanRequests`
(see `handleHumanInputRequest`).  `agentWs` is the back-reference to the
originating connection (`request.agentWs = ws`), stored as a connection id;
`response` is absent until (and unless) a resolution stores one. -/
structure HIRequest where
  id : EntityId
  agent_id : Option EntityId
  agent_name : String
  request_type : String
  message : String
  priority : String
  status : String
  timestamp : String
  options : List String
  response : Option String
  agentWs : Option Nat
deriving DecidableEq, Repr

/-- A live WebSocket connection as the hub sees it: the tag fields the hub
writes onto the socket object (`ws.clientType`, `ws.agentId`). -/
structure Conn where
  id : Nat
  clientType : Option String
  agentId : Option EntityId
deriving DecidableEq, Repr

/-- Partial agent patch carried by an `agent-update` message
(`Object.assign(agent, updateData)` restricted to the agent's fields). -/
structure AgentPatch where
  name : Option String := none
  status : Option String := none
  timestamp : Option String := none
deriving DecidableEq, Repr

/-- Outbound event payloads — exactly the message shapes the hub ever sends. -/
inductive Payload where
  | agentConnected (a : Agent)
  | agentDisconnected (agentId : EntityId)
  | humanInputRequest (r : HIRequest)
  | humanInputResponse (requestId : EntityId) (response : Option String)
  | agentUpdate (a : Agent)
deriving DecidableEq, Repr

/-- One delivery attempt produced by `ws.send`: destination connection id and
payload. -/
structure OutMsg where
  dest : Nat
  payload : Payload
deriving DecidableEq, Repr

/-- Inbound messages, after JSON parsing (`handleMessage`'s switch).  Fields
are `Option`s because the JSON envelope may omit them. -/
inductive InMsg where
  | registerGui
  | registerAgent (name : Option String)
  | humanInputRequest (request_type msg priority : Option String)
      (options : Option (List String))
  | humanInputResponse (requestId : Option EntityId) (response : Option String)
  | agentUpdate (patch : AgentPatch)
  | unknown (t : String)
deriving DecidableEq, Repr

/-- The hub's whole mutable state.  `demoStage` sequences the two
`createDemoData` timers (0 = not fired, 1 = agent created, 2 = request
created), each of which fires at most once. -/
structure ServerState where
  agents : List (EntityId × Agent)
  humanRequests : List (EntityId × HIRequest)
  guiClients : List Nat
  conns : List Conn
  nextId : Nat
  demoStage : Nat
deriving DecidableEq, Repr

/-! ### JavaScript Map and socket-registry primitives -/

/-- `Map.set`: replace in place if the key is present, else append. -/
def mapSet {α : Type} (k : EntityId) (v : α) :
    List (EntityId × α) → List (EntityId × α)
  | [] => [(k, v)]
  | kv :: rest => if kv.1 = k then (k, v) :: rest else kv :: mapSet k v rest

/-- `Map.get`: first binding of the key, if any. -/
def mapGet {α : Type} (k : EntityId) : List (EntityId × α) → Option α
  | [] => none
  | kv :: rest => if kv.1 = k then some kv.2 else mapGet k rest

/-- `Map.delete`: drop the binding of the key. -/
def mapDelete {α : Type} (k : EntityId) :
    List (EntityId × α) → List (EntityId × α)
  | [] => []
  | kv :: rest => if kv.1 = k then rest else kv :: mapDelete k rest

/-- Update the tag fields of the connection with the given id. -/
def updateConn (cid : Nat) (f : Conn → Conn) (l : List Conn) : List Conn :=
  l.map (fun c => if c.id = cid then f c else c)

/-- Look a connection up by id in a connection list. -/
def findConn : List Conn → Nat → Option Conn
  | [], _ => none
  | c :: cs, cid => if c.id = cid then some c else findConn cs cid

/-- Whether a connection id denotes a live (open) socket. -/
def connOpenL (l : List Conn) (cid : Nat) : Bool :=
  (findConn l cid).isSome

/-- Remove the closed socket from the live-connection registry. -/
def removeConnById : List Conn → Nat → List Conn
  | [], _ => []
  | c :: cs, cid =>
      if c.id = cid then removeConnById cs cid else c :: removeConnById cs cid

/-- `Set.delete` on the GUI fan-out set. -/
def removeNat : List Nat → Nat → List Nat
  | [], _ => []
  | g :: gs, cid => if g = cid then removeNat gs cid else g :: removeNat gs cid

def getConn (s : ServerState) (cid : Nat) : Option Conn :=
  findConn s.conns cid

/-- `ws.readyState === WebSocket.OPEN` for the socket with this id: in this
model a socket is open exactly while it is registered in `conns`. -/
def connOpen (s : ServerState) (cid : Nat) : Bool :=
  connOpenL s.conns cid

/-- `ws.agentId` of the connection, when the connection exists. -/
def connAgentId (s : ServerState) (cid : Nat) : Option EntityId :=
  (getConn s cid).bind (fun c => c.agentId)

/-- JavaScript `v || d` on strings: `undefined` and `""` both fall back. -/
def jsOr (v : Option String) (d : String) : String :=
  match v with
  | none => d
  | some st => if st = "" then d else st

/-! ### Hub operations (AgentHUDWebSocketServer) -/

/-- `sendToClient(ws, message)`: deliver only if the socket is open. -/
def sendToClient (s : ServerState) (cid : Nat) (p : Payload) : List OutMsg :=
  if connOpen s cid then [⟨cid, p⟩] else []

/-- `broadcastToGUIs(message)`: attempt delivery to every registered GUI
client, skipping closed sockets. -/
def broadcastToGUIs (s : ServerState) (p : Payload) : List OutMsg :=
  (s.guiClients.map (fun g => sendToClient s g p)).flatten

/-- `registerGUI(ws)`: tag the socket, add it to the fan-out set, then replay
the full current agent set followed by the full current request set to that
one socket. -/
def registerGUI (s : ServerState) (cid : Nat) : ServerState × List OutMsg :=
  let s1 : ServerState :=
    { s with
      conns := updateConn cid (fun c => { c with clientType := some "gui" }) s.conns
      guiClients :=
        if cid ∈ s.guiClients then s.guiClients else s.guiClients ++ [cid] }
  (s1,
    (s1.agents.map (fun kv => sendToClient s1 cid (Payload.agentConnected kv.2))).flatten
      ++ (s1.humanRequests.map
            (fun kv => sendToClient s1 cid (Payload.humanInputRequest kv.2))).flatten)

/-- `registerAgent(ws, agentData)`: allocate a fresh id, create the record
with status `Connected`, tag the socket, broadcast `agent-connected`. -/
def registerAgent (s : ServerState) (cid : Nat) (name : Option String)
    (now : String) : ServerState × List OutMsg :=
  let agentId := EntityId.uuid s.nextId
  let agent : Agent :=
    { id := agentId, name := jsOr name "Unknown Agent"
      status := "Connected", timestamp := now }
  let s1 : ServerState :=
    { s with
      nextId := s.nextId + 1
      conns := updateConn cid
        (fun c => { c with clientType := some "agent", agentId := some agentId })
        s.conns
      agents := mapSet agentId agent s.agents }
  (s1, broadcastToGUIs s1 (Payload.agentConnected agent))

/-- `handleHumanInputRequest(ws, requestData)`: create a Pending request,
denormalizing the agent name (`'Unknown Agent'` when the socket has no agent
record), store it, remember the originating socket, broadcast it. -/
def handleHumanInputRequest (s : ServerState) (cid : Nat)
    (request_type msg priority : Option String) (options : Option (List String))
    (now : String) : ServerState × List OutMsg :=
  let requestId := EntityId.uuid s.nextId
  let wsAgentId := connAgentId s cid
  let agent := wsAgentId.bind (fun a => mapGet a s.agents)
  let request : HIRequest :=
    { id := requestId
      agent_id := wsAgentId
      agent_name := match agent with | some a => a.name | none => "Unknown Agent"
      request_type := jsOr request_type "input"
      message := jsOr msg "Human input required"
      priority := jsOr priority "Medium"
      status := "Pending"
      timestamp := now
      options := options.getD []
      response := none
      agentWs := some cid }
  let s1 : ServerState :=
    { s with
      nextId := s.nextId + 1
      humanRequests := mapSet requestId request s.humanRequests }
  (s1, broadcastToGUIs s1 (Payload.humanInputRequest request))

/-- `handleHumanInputResponse(requestId, response)`: look the request up
(dropped if absent), mark it Completed storing the response, send the
point-to-point response to the originating socket if still open, then
re-broadcast the updated request to all GUI clients. -/
def handleHumanInputResponse (s : ServerState) (requestId : Option EntityId)
    (response : Option String) : ServerState × List OutMsg :=
  match requestId with
  | none => (s, [])
  | some rid =>
    match mapGet rid s.humanRequests with
    | none => (s, [])
    | some req =>
      let req1 := { req with status := "Completed", response := response }
      let s1 := { s with humanRequests := mapSet rid req1 s.humanRequests }
      let ptp :=
        match req1.agentWs with
        | some w => sendToClient s1 w (Payload.humanInputResponse rid response)
        | none => []
      (s1, ptp ++ broadcastToGUIs s1 (Payload.humanInputRequest req1))

/-- `Object.assign(agent, updateData)` restricted to the agent's fields. -/
def applyPatch (a : Agent) (p : AgentPatch) : Agent :=
  { a with
    name := p.name.getD a.name
    status := p.status.getD a.status
    timestamp := p.timestamp.getD a.timestamp }

/-- `handleAgentUpdate(ws, updateData)`: merge the patch into the socket's
agent record, if there is one, and broadcast the updated record. -/
def handleAgentUpdate (s : ServerState) (cid : Nat) (p : AgentPatch) :
    ServerState × List OutMsg :=
  match connAgentId s cid with
  | none => (s, [])
  | some aid =>
    match mapGet aid s.agents with
    | none => (s, [])
    | some a =>
      let a1 := applyPatch a p
      let s1 := { s with agents := mapSet aid a1 s.agents }
      (s1, broadcastToGUIs s1 (Payload.agentUpdate a1))

/-- `handleDisconnection(ws)` plus the transport removing the closed socket:
GUI sockets leave the fan-out set; agent sockets with an agent record have
that record deleted and `agent-disconnected` broadcast. -/
def handleDisconnection (s : ServerState) (cid : Nat) :
    ServerState × List OutMsg :=
  match getConn s cid with
  | none => (s, [])
  | some c =>
    let s0 := { s with conns := removeConnById s.conns cid }
    if c.clientType = some "gui" then
      ({ s0 with guiClients := removeNat s0.guiClients cid }, [])
    else if c.clientType = some "agent" then
      match c.agentId with
      | none => (s0, [])
      | some aid =>
        match mapGet aid s0.agents with
        | none => (s0, [])
        | some _ =>
          let s1 := { s0 with agents := mapDelete aid s0.agents }
          (s1, broadcastToGUIs s1 (Payload.agentDisconnected aid))
    else (s0, [])

/-- `handleMessage(ws, message)`: dispatch on `message.type` only — no role
or classification check; unknown types are logged and dropped. -/
def handleMessage (s : ServerState) (cid : Nat) (m : InMsg) (now : String) :
    ServerState × List OutMsg :=
  match m with
  | .registerGui => registerGUI s cid
  | .registerAgent name => registerAgent s cid name now
  | .humanInputRequest rt msg pr opts =>
      handleHumanInputRequest s cid rt msg pr opts now
  | .humanInputResponse rid resp => handleHumanInputResponse s rid resp
  | .agentUpdate p => handleAgentUpdate s cid p
  | .unknown _ => (s, [])

/-- The demo agent literal from `createDemoData`. -/
def demoAgentRecord (now : String) : Agent :=
  { id := EntityId.demoAgent, name := "Demo Analysis Agent"
    status := "Active", timestamp := now }

/-- The demo request literal from `createDemoData`; note it carries no
`agentWs` back-reference. -/
def demoRequestRecord (now : String) : HIRequest :=
  { id := EntityId.demoRequest
    agent_id := some EntityId.demoAgent
    agent_name := "Demo Analysis Agent"
    request_type := "approval"
    message := "Should I proceed with the data analysis? This will process 10,000 records."
    priority := "High"
    status := "Pending"
    timestamp := now
    options := ["Yes, proceed", "No, cancel", "Review settings first"]
    response := none
    agentWs := none }

/-- First `createDemoData` timer: create the demo agent (no connection, no
broadcast at this stage). -/
def demoStage1 (s : ServerState) (now : String) : ServerState × List OutMsg :=
  if s.demoStage = 0 then
    ({ s with
        agents := mapSet EntityId.demoAgent (demoAgentRecord now) s.agents
        demoStage := 1 }, [])
  else (s, [])

/-- Second `createDemoData` timer: create the demo request and broadcast the
captured demo agent and the request to any connected GUIs. -/
def demoStage2 (s : ServerState) (nowA nowR : String) :
    ServerState × List OutMsg :=
  if s.demoStage = 1 then
    let s1 : ServerState :=
      { s with
        humanRequests :=
          mapSet EntityId.demoRequest (demoRequestRecord nowR) s.humanRequests
        demoStage := 2 }
    (s1,
      broadcastToGUIs s1 (Payload.agentConnected (demoAgentRecord nowA))
        ++ broadcastToGUIs s1 (Payload.humanInputRequest (demoRequestRecord nowR)))
  else (s, [])

/-- External events driving the hub: a transport attaching a new socket, an
inbound message on a live socket, a transport close, and the two demo timers. -/
inductive Event where
  | connect (cid : Nat)
  | message (cid : Nat) (m : InMsg) (now : String)
  | disconnect (cid : Nat)
  | demo1 (now : String)
  | demo2 (nowA nowR : String)
deriving DecidableEq, Repr

/-- One event-loop iteration of the hub. -/
def step (s : ServerState) (e : Event) : ServerState × List OutMsg :=
  match e with
  | .connect cid =>
      if connOpen s cid then (s, [])
      else ({ s with conns := s.conns ++ [{ id := cid, clientType := none, agentId := none }] }, [])
  | .message cid m now =>
      if connOpen s cid then handleMessage s cid m now else (s, [])
  | .disconnect cid => handleDisconnection s cid
  | .demo1 now => demoStage1 s now
  | .demo2 a r => demoStage2 s a r

/-- Hub state at process start: every ledger empty. -/
def initState : ServerState :=
  { agents := [], humanRequests := [], guiClients := [], conns := []
    nextId := 0, demoStage := 0 }

/-- Run a sequence of events from a state, accumulating all sends in order. -/
def runFrom (s : ServerState) : List Event → ServerState × List OutMsg
  | [] => (s, [])
  | e :: es =>
      ((runFrom (step s e).1 es).1,
        (step s e).2 ++ (runFrom (step s e).1 es).2)

/-- Run a sequence of events from process start. -/
def run (es : List Event) : ServerState × List OutMsg :=
  runFrom initState es

/-- A hub state is reachable when some event sequence produces it. -/
def Reachable (s : ServerState) : Prop :=
  ∃ es, (run es).1 = s

/-! ### Dashboard client (AgentHUDApp) -/

/-- A content emission held in `this.contentItems`.  `id` is an `Option`
because the incoming payload may lack one (`addContentItem` then generates
one); note that in JavaScript an empty-string id is falsy and is also
replaced. -/
structure ContentItem where
  id : Option String
  type : String
  content : String
  language : Option String
  caption : Option String
  title : String
  agent_id : Option String
  agent_name : Option String
  timestamp : String
deriving DecidableEq, Repr

/-- The dashboard's local state (the fields of `AgentHUDApp` the relay logic
touches). -/
structure AppState where
  agents : List Agent
  humanRequests : List HIRequest
  contentItems : List ContentItem
  latestContent : Option ContentItem
  currentContentIndex : Int
  currentRequestId : Option EntityId
deriving DecidableEq, Repr

/-- `addAgent(agent)`: deduplicate by id; push only on first occurrence. -/
def addAgent (s : AppState) (a : Agent) : AppState :=
  match s.agents.find? (fun x => x.id == a.id) with
  | some _ => s
  | none => { s with agents := s.agents ++ [a] }

/-- `addRequest(request)`: deduplicate by id; push only on first occurrence.
When the id already occurs nothing at all happens — the incoming fields are
not merged into the existing entry. -/
def addRequest (s : AppState) (r : HIRequest) : AppState :=
  match s.humanRequests.find? (fun x => x.id == r.id) with
  | some _ => s
  | none => { s with humanRequests := s.humanRequests ++ [r] }

/-- JavaScript falsiness of `contentItem.id`: absent or the empty string. -/
def isFalsyId : Option String → Bool
  | none => true
  | some st => st = ""

/-- `addContentItem(contentItem)`: generate an id when the incoming one is
falsy (`fresh` stands for the `Date.now() + random` token), deduplicate by
id; on first occurrence append to the history, set it as latest, and point
the navigation cursor at it. -/
def addContentItem (s : AppState) (fresh : String) (item0 : ContentItem) :
    AppState :=
  let item := if isFalsyId item0.id then { item0 with id := some fresh } else item0
  match s.contentItems.find? (fun c => c.id == item.id) with
  | some _ => s
  | none =>
      { s with
        contentItems := s.contentItems ++ [item]
        latestContent := some item
        currentContentIndex := (s.contentItems.length : Int) }

/-- `clearHumanRequests()`: behind a `confirm()` dialog, reset the local
request list and the current-request pointer.  The second component is the
list of messages sent to the hub — none are. -/
def clearHumanRequests (s : AppState) (confirmed : Bool) :
    AppState × List InMsg :=
  if confirmed then
    ({ s with humanRequests := [], currentRequestId := none }, [])
  else (s, [])

/-! ### Discovery protocol (connectToWebSocket / tryConnectToPort) -/

/-- The candidate ports `8080 ≤ p < 8200`, in the order the `for` loop visits
them. -/
def portRange : List Nat := List.range' 8080 120

/-- The per-attempt connection timeout in `tryConnectToPort` (milliseconds). -/
def connectTimeoutMs : Nat := 1000

/-- The delay of the `setTimeout(() => this.connectToWebSocket(), 3000)`
installed by the socket's close handler (milliseconds). -/
def reconnectDelayMs : Nat := 3000

/-- The scanning loop of `connectToWebSocket` over an arbitrary list of
candidate ports: `attempt p = true` means the connection attempt to `p`
completes a handshake within the timeout.  Returns the list of ports probed,
in order, and the adopted port if any. -/
def scanPorts (attempt : Nat → Bool) : List Nat → List Nat × Option Nat
  | [] => ([], none)
  | p :: ps =>
      if attempt p then ([p], some p)
      else ((p :: (scanPorts attempt ps).1), (scanPorts attempt ps).2)

/-- `connectToWebSocket()`: scan the fixed candidate range. -/
def connectToWebSocket (attempt : Nat → Bool) : List Nat × Option Nat :=
  scanPorts attempt portRange

/-- How a single `tryConnectToPort` attempt can end. -/
inductive AttemptOutcome where
  | opened
  | errored
  | timedOut
deriving DecidableEq, Repr

/-- What a single attempt does: whether the promise resolves (port adopted),
whether `register-gui` is sent, and the delays of any rescans its handlers
schedule. -/
structure AttemptEffects where
  resolved : Bool
  registerSent : Bool
  rescanDelays : List Nat
deriving DecidableEq, Repr

/-- The close handler installed by `tryConnectToPort` before the socket ever
opens: it unconditionally schedules `connectToWebSocket` again after
`reconnectDelayMs`. -/
def onCloseRescan : List Nat := [reconnectDelayMs]

/-- Effects of one `tryConnectToPort(port)` attempt.  On `opened` the promise
resolves, `register-gui` is sent, and the pending reconnect timer is cleared.
On `errored` the promise rejects and the failed socket's close event fires
the close handler.  On `timedOut` the timeout callback finds the socket not
OPEN and calls `ws.close()`, which likewise fires the close handler — so a
rescan is scheduled even though no connection was ever established. -/
def tryConnectEffects : AttemptOutcome → AttemptEffects
  | .opened => { resolved := true, registerSent := true, rescanDelays := [] }
  | .errored => { resolved := false, registerSent := false, rescanDelays := onCloseRescan }
  | .timedOut => { resolved := false, registerSent := false, rescanDelays := onCloseRescan }

/-! ### Association-list (JavaScript Map) lemmas -/

theorem mapGet_mapSet_self {α : Type} (k : EntityId) (v : α)
    (l : List (EntityId × α)) : mapGet k (mapSet k v l) = some v := by
  induction l with
  | nil => simp [mapSet, mapGet]
  | cons kv rest ih =>
      by_cases h : kv.1 = k
      · simp [mapSet, mapGet, h]
      · simp [mapSet, mapGet, h, ih]

theorem mapGet_mapSet_ne {α : Type} {k k2 : EntityId} (h : k ≠ k2) (v : α)
    (l : List (EntityId × α)) : mapGet k (mapSet k2 v l) = mapGet k l := by
  have h2 : ¬ (k2 = k) := fun hh => h hh.symm
  induction l with
  | nil => simp [mapSet, mapGet, h2]
  | cons kv rest ih =>
      by_cases ha : kv.1 = k2
      · have hb : ¬ (kv.1 = k) := fun hh => h2 (ha ▸ hh)
        simp [mapSet, mapGet, ha, h, h2, hb]
      · by_cases hb : kv.1 = k
        · simp [mapSet, mapGet, ha, hb, h, h2]
        · simp [mapSet, mapGet, ha, hb, h, h2, ih]

theorem mem_mapSet {α : Type} {kv : EntityId × α} {k : EntityId} {v : α}
    {l : List (EntityId × α)} (h : kv ∈ mapSet k v l) : kv = (k, v) ∨ kv ∈ l := by
  induction l with
  | nil => simp [mapSet] at h; exact Or.inl h
  | cons kv2 rest ih =>
      by_cases h2 : kv2.1 = k
      · simp only [mapSet, if_pos h2, List.mem_cons] at h
        rcases h with h | h
        · exact Or.inl h
        · exact Or.inr (List.mem_cons_of_mem _ h)
      · simp only [mapSet, if_neg h2, List.mem_cons] at h
        rcases h with h | h
        · exact Or.inr (h ▸ List.mem_cons_self _ _)
        · rcases ih h with h3 | h3
          · exact Or.inl h3
          · exact Or.inr (List.mem_cons_of_mem _ h3)

theorem mapGet_mem {α : Type} {k : EntityId} {v : α} {l : List (EntityId × α)}
    (h : mapGet k l = some v) : (k, v) ∈ l := by
  induction l with
  | nil => simp [mapGet] at h
  | cons kv rest ih =>
      by_cases h2 : kv.1 = k
      · simp only [mapGet, if_pos h2] at h
        cases h
        have : kv = (k, kv.2) := by
          cases kv; simp_all
        exact this ▸ List.mem_cons_self _ _
      · simp only [mapGet, if_neg h2] at h
        exact List.mem_cons_of_mem _ (ih h)

theorem mem_mapDelete {α : Type} {kv : EntityId × α} {k : EntityId}
    {l : List (EntityId × α)} (h : kv ∈ mapDelete k l) : kv ∈ l := by
  induction l with
  | nil => simp [mapDelete] at h
  | cons kv2 rest ih =>
      by_cases h2 : kv2.1 = k
      · simp only [mapDelete, if_pos h2] at h
        exact List.mem_cons_of_mem _ h
      · simp only [mapDelete, if_neg h2, List.mem_cons] at h
        rcases h with h | h
        · exact h ▸ List.mem_cons_self _ _
        · exact List.mem_cons_of_mem _ (ih h)

/-! ### Connection-registry lemmas -/

theorem findConn_updateConn (cid x : Nat) (f : Conn → Conn)
    (hf : ∀ c, (f c).id = c.id) (l : List Conn) :
    findConn (updateConn cid f l) x =
      (findConn l x).map (fun c => if c.id = cid then f c else c) := by
  induction l with
  | nil => rfl
  | cons c cs ih =>
      have hstep : updateConn cid f (c :: cs) =
          (if c.id = cid then f c else c) :: updateConn cid f cs := rfl
      rw [hstep]
      have hid : (if c.id = cid then f c else c).id = c.id := by
        by_cases hc : c.id = cid
        · rw [if_pos hc]; exact hf c
        · rw [if_neg hc]
      by_cases hx : c.id = x
      · have hhead : (if c.id = cid then f c else c).id = x := by rw [hid]; exact hx
        simp only [findConn, if_pos hhead, if_pos hx, Option.map_some']
      · have hhead : ¬ (if c.id = cid then f c else c).id = x :=
          fun hcontra => hx (hid.symm.trans hcontra)
        simp only [findConn, if_neg hhead, if_neg hx]
        exact ih

theorem connOpenL_updateConn (cid x : Nat) (f : Conn → Conn)
    (hf : ∀ c, (f c).id = c.id) (l : List Conn) :
    connOpenL (updateConn cid f l) x = connOpenL l x := by
  rw [connOpenL, connOpenL, findConn_updateConn cid x f hf]
  cases findConn l x <;> rfl

theorem connOpenL_removeConn {x cid : Nat} (hx : x ≠ cid) (l : List Conn) :
    connOpenL (removeConnById l cid) x = connOpenL l x := by
  induction l with
  | nil => rfl
  | cons c cs ih =>
      by_cases hc : c.id = cid
      · have hcx : ¬ c.id = x := fun h => hx (by rw [← h, hc])
        simp only [removeConnById, if_pos hc]
        rw [ih]
        simp only [connOpenL, findConn, if_neg hcx]
      · simp only [removeConnById, if_neg hc]
        by_cases hcx : c.id = x
        · simp only [connOpenL, findConn, if_pos hcx]
        · simp only [connOpenL, findConn, if_neg hcx]
          exact ih

theorem findConn_id {l : List Conn} {x : Nat} {c : Conn}
    (h : findConn l x = some c) : c.id = x := by
  induction l with
  | nil => simp [findConn] at h
  | cons c2 cs ih =>
      by_cases h2 : c2.id = x
      · simp only [findConn, if_pos h2] at h
        cases h; exact h2
      · simp only [findConn, if_neg h2] at h
        exact ih h

/-! ### Broadcast lemmas -/

theorem sendAll_eq (s : ServerState) (p : Payload) (gs : List Nat) :
    ((gs.map (fun g => sendToClient s g p)).flatten) =
      (gs.filter (fun g => connOpen s g)).map (fun g => OutMsg.mk g p) := by
  induction gs with
  | nil => rfl
  | cons g rest ih =>
      simp only [List.map_cons, List.flatten_cons, ih, List.filter_cons]
      by_cases h : connOpen s g
      · simp [sendToClient, h]
      · simp [sendToClient, h]

theorem broadcastToGUIs_eq (s : ServerState) (p : Payload) :
    broadcastToGUIs s p =
      (s.guiClients.filter (fun g => connOpen s g)).map (fun g => OutMsg.mk g p) :=
  sendAll_eq s p s.guiClients

theorem sendToClient_congr {t s : ServerState} (cid : Nat)
    (hc : connOpen t cid = connOpen s cid) (p : Payload) :
    sendToClient t cid p = sendToClient s cid p := by
  simp [sendToClient, hc]

theorem broadcast_congr {t s : ServerState} (hg : t.guiClients = s.guiClients)
    (hc : ∀ x, connOpen t x = connOpen s x) (p : Payload) :
    broadcastToGUIs t p = broadcastToGUIs s p := by
  have hsend : ∀ g, sendToClient t g p = sendToClient s g p :=
    fun g => sendToClient_congr g (hc g) p
  unfold broadcastToGUIs
  rw [hg]
  simp only [hsend]

/-! ### Run lemmas -/

theorem runFrom_append (s : ServerState) (xs ys : List Event) :
    runFrom s (xs ++ ys) =
      ((runFrom (runFrom s xs).1 ys).1,
        (runFrom s xs).2 ++ (runFrom (runFrom s xs).1 ys).2) := by
  induction xs generalizing s with
  | nil => simp [runFrom]
  | cons e es ih => simp [runFrom, ih, List.append_assoc]

theorem run_append_single (es : List Event) (e : Event) :
    (run (es ++ [e])).1 = (step (run es).1 e).1 := by
  rw [run, run, runFrom_append]
  simp [runFrom]

/-! ### Ledger invariants

`WFreq` bundles the facts about the request ledger that every reachable hub
state satisfies: every `uuid` key in the ledger was drawn from an earlier
counter value (so the next `uuidv4()` is fresh), the demo request key is
absent until the second demo timer fires, and a stored response implies a
Completed status. -/

def WFreq (s : ServerState) : Prop :=
  (∀ kv ∈ s.humanRequests, ∀ m, kv.1 = EntityId.uuid m → m < s.nextId) ∧
  (s.demoStage < 2 → mapGet EntityId.demoRequest s.humanRequests = none) ∧
  (∀ kv ∈ s.humanRequests, kv.2.response.isSome = true → kv.2.status = "Completed")

theorem wfreq_init : WFreq initState := by
  refine ⟨?_, ?_, ?_⟩ <;> simp [initState, mapGet]

theorem wfreq_step (s : ServerState) (e : Event) (h : WFreq s) :
    WFreq (step s e).1 := by
  obtain ⟨h1, h2, h3⟩ := h
  cases e with
  | connect cid =>
      by_cases hc : connOpen s cid <;> simp only [step, hc, if_pos, if_neg] <;>
        exact ⟨h1, h2, h3⟩
  | disconnect cid =>
      simp only [step, handleDisconnection]
      split
      · exact ⟨h1, h2, h3⟩
      · split
        · exact ⟨h1, h2, h3⟩
        · split
          · split
            · exact ⟨h1, h2, h3⟩
            · split
              · exact ⟨h1, h2, h3⟩
              · exact ⟨h1, h2, h3⟩
          · exact ⟨h1, h2, h3⟩
  | demo1 now =>
      simp only [step, demoStage1]
      split
      · exact ⟨h1, fun _ => h2 (by omega), h3⟩
      · exact ⟨h1, h2, h3⟩
  | demo2 nowA nowR =>
      simp only [step, demoStage2]
      split
      · refine ⟨?_, ?_, ?_⟩
        · intro kv hkv m hm
          rcases mem_mapSet hkv with heq | hmem
          · rw [heq] at hm; exact absurd hm (by simp)
          · exact h1 kv hmem m hm
        · intro hd; simp at hd
        · intro kv hkv hr
          rcases mem_mapSet hkv with heq | hmem
          · rw [heq] at hr; simp [demoRequestRecord] at hr
          · exact h3 kv hmem hr
      · exact ⟨h1, h2, h3⟩
  | message cid m now =>
      by_cases hc : connOpen s cid
      · simp only [step, hc, if_pos]
        cases m with
        | registerGui => exact ⟨h1, h2, h3⟩
        | registerAgent name =>
            exact ⟨fun kv hkv m2 hm => Nat.lt_succ_of_lt (h1 kv hkv m2 hm), h2, h3⟩
        | humanInputRequest rt msg pr opts =>
            simp only [handleMessage, handleHumanInputRequest]
            refine ⟨?_, ?_, ?_⟩
            · intro kv hkv m2 hm
              simp only [] at hkv
              rcases mem_mapSet hkv with heq | hmem
              · rw [heq] at hm
                have hm2 : s.nextId = m2 := by simpa using hm
                simp only []
                omega
              · exact Nat.lt_succ_of_lt (h1 kv hmem m2 hm)
            · intro hd
              simp only []
              rw [mapGet_mapSet_ne (by simp)]
              exact h2 (by simpa using hd)
            · intro kv hkv hr
              simp only [] at hkv
              rcases mem_mapSet hkv with heq | hmem
              · rw [heq] at hr; simp at hr
              · exact h3 kv hmem hr
        | humanInputResponse rid resp =>
            simp only [handleMessage, handleHumanInputResponse]
            split
            · exact ⟨h1, h2, h3⟩
            · rename_i rid2
              split
              · exact ⟨h1, h2, h3⟩
              · rename_i req hreq
                refine ⟨?_, ?_, ?_⟩
                · intro kv hkv m2 hm
                  simp only [] at hkv
                  rcases mem_mapSet hkv with heq | hmem
                  · rw [heq] at hm
                    exact h1 (rid2, req) (mapGet_mem hreq) m2 hm
                  · exact h1 kv hmem m2 hm
                · intro hd
                  simp only [] at hd ⊢
                  have hrid : rid2 ≠ EntityId.demoRequest := by
                    intro hh
                    rw [hh] at hreq
                    rw [h2 hd] at hreq
                    exact Option.noConfusion hreq
                  rw [mapGet_mapSet_ne (fun hh => hrid hh.symm)]
                  exact h2 hd
                · intro kv hkv hr
                  simp only [] at hkv
                  rcases mem_mapSet hkv with heq | hmem
                  · rw [heq]
                  · exact h3 kv hmem hr
        | agentUpdate p =>
            simp only [handleMessage, handleAgentUpdate]
            split
            · exact ⟨h1, h2, h3⟩
            · split
              · exact ⟨h1, h2, h3⟩
              · exact ⟨h1, h2, h3⟩
        | unknown t => exact ⟨h1, h2, h3⟩
      · simp only [step, hc]
        exact ⟨h1, h2, h3⟩

theorem wfreq_runFrom (es : List Event) (s : ServerState) (h : WFreq s) :
    WFreq (runFrom s es).1 := by
  induction es generalizing s with
  | nil => exact h
  | cons e es ih => exact ih (step s e).1 (wfreq_step s e h)

theorem wfreq_run (es : List Event) : WFreq (run es).1 :=
  wfreq_runFrom es initState wfreq_init

/-- Status monotonicity over one step: a request that the ledger holds as
Completed is still Completed after any event (it may be overwritten by a
re-resolution, but only with another Completed record). -/
theorem mono_step (s : ServerState) (e : Event) (k : EntityId)
    (r r2 : HIRequest) (hwf : WFreq s)
    (hget : mapGet k s.humanRequests = some r)
    (hget2 : mapGet k (step s e).1.humanRequests = some r2)
    (hc : r.status = "Completed") : r2.status = "Completed" := by
  obtain ⟨h1, h2, _⟩ := hwf
  cases e with
  | connect cid =>
      simp only [step] at hget2
      split at hget2 <;>
        · try simp only [] at hget2
          rw [hget] at hget2; cases hget2; exact hc
  | disconnect cid =>
      simp only [step, handleDisconnection] at hget2
      split at hget2
      · rw [hget] at hget2; cases hget2; exact hc
      · split at hget2
        · try simp only [] at hget2
          rw [hget] at hget2; cases hget2; exact hc
        · split at hget2
          · split at hget2
            · try simp only [] at hget2
              rw [hget] at hget2; cases hget2; exact hc
            · split at hget2 <;>
                · try simp only [] at hget2
                  rw [hget] at hget2; cases hget2; exact hc
          · try simp only [] at hget2
            rw [hget] at hget2; cases hget2; exact hc
  | demo1 now =>
      simp only [step, demoStage1] at hget2
      split at hget2 <;>
        · try simp only [] at hget2
          rw [hget] at hget2; cases hget2; exact hc
  | demo2 nowA nowR =>
      simp only [step, demoStage2] at hget2
      split at hget2
      · rename_i hd
        try simp only [] at hget2
        have hk : k ≠ EntityId.demoRequest := by
          intro hh
          rw [hh] at hget
          rw [h2 (by omega)] at hget
          exact Option.noConfusion hget
        rw [mapGet_mapSet_ne hk] at hget2
        rw [hget] at hget2; cases hget2; exact hc
      · rw [hget] at hget2; cases hget2; exact hc
  | message cid m now =>
      simp only [step] at hget2
      split at hget2
      case isFalse =>
        rw [hget] at hget2; cases hget2; exact hc
      case isTrue hco =>
        cases m with
        | registerGui =>
            simp only [handleMessage, registerGUI] at hget2
            rw [hget] at hget2; cases hget2; exact hc
        | registerAgent name =>
            simp only [handleMessage, registerAgent] at hget2
            rw [hget] at hget2; cases hget2; exact hc
        | humanInputRequest rt msg pr opts =>
            simp only [handleMessage, handleHumanInputRequest] at hget2
            have hk : k ≠ EntityId.uuid s.nextId := by
              intro hh
              have := h1 (k, r) (mapGet_mem hget) s.nextId hh
              omega
            rw [mapGet_mapSet_ne hk] at hget2
            rw [hget] at hget2; cases hget2; exact hc
        | humanInputResponse rid resp =>
            simp only [handleMessage, handleHumanInputResponse] at hget2
            split at hget2
            · rw [hget] at hget2; cases hget2; exact hc
            · rename_i rid2
              split at hget2
              · rw [hget] at hget2; cases hget2; exact hc
              · rename_i req hreq
                try simp only [] at hget2
                by_cases hk : k = rid2
                · subst hk
                  rw [mapGet_mapSet_self] at hget2
                  cases hget2; rfl
                · rw [mapGet_mapSet_ne hk] at hget2
                  rw [hget] at hget2; cases hget2; exact hc
        | agentUpdate p =>
            simp only [handleMessage, handleAgentUpdate] at hget2
            split at hget2
            · rw [hget] at hget2; cases hget2; exact hc
            · split at hget2 <;>
                · try simp only [] at hget2
                  rw [hget] at hget2; cases hget2; exact hc
        | unknown t =>
            simp only [handleMessage] at hget2
            rw [hget] at hget2; cases hget2; exact hc

/-- An event sequence in which every `human-input-response` message actually
carries a response value. -/
def RespCarried : Event → Prop
  | .message _ (.humanInputResponse _ resp) _ => resp.isSome = true
  | _ => True

/-- Response present if and only if Completed — the per-state form. -/
def RespIffCompleted (s : ServerState) : Prop :=
  ∀ kv ∈ s.humanRequests, (kv.2.response.isSome = true ↔ kv.2.status = "Completed")

theorem respIff_step (s : ServerState) (e : Event) (he : RespCarried e)
    (h : RespIffCompleted s) : RespIffCompleted (step s e).1 := by
  cases e with
  | connect cid =>
      by_cases hco : connOpen s cid <;> simp only [step, hco, if_pos, if_neg] <;> exact h
  | disconnect cid =>
      simp only [step, handleDisconnection]
      split
      · exact h
      · split
        · exact h
        · split
          · split
            · exact h
            · split <;> exact h
          · exact h
  | demo1 now =>
      simp only [step, demoStage1]
      split <;> exact h
  | demo2 nowA nowR =>
      simp only [step, demoStage2]
      split
      · intro kv hkv
        simp only [] at hkv
        rcases mem_mapSet hkv with heq | hmem
        · rw [heq]
          constructor
          · intro hr; simp [demoRequestRecord] at hr
          · intro hs; simp [demoRequestRecord] at hs
        · exact h kv hmem
      · exact h
  | message cid m now =>
      by_cases hco : connOpen s cid
      · simp only [step, hco, if_pos]
        cases m with
        | registerGui => exact h
        | registerAgent name => exact h
        | humanInputRequest rt msg pr opts =>
            simp only [handleMessage, handleHumanInputRequest]
            intro kv hkv
            simp only [] at hkv
            rcases mem_mapSet hkv with heq | hmem
            · rw [heq]
              constructor
              · intro hr; simp at hr
              · intro hs; simp at hs
            · exact h kv hmem
        | humanInputResponse rid resp =>
            simp only [handleMessage, handleHumanInputResponse]
            split
            · exact h
            · split
              · exact h
              · intro kv hkv
                simp only [] at hkv
                rcases mem_mapSet hkv with heq | hmem
                · rw [heq]
                  constructor
                  · intro _; rfl
                  · intro _; exact he
                · exact h kv hmem
        | agentUpdate p =>
            simp only [handleMessage, handleAgentUpdate]
            split
            · exact h
            · split
              · exact h
              · exact h
        | unknown t => exact h
      · simp only [step, hco]
        exact h

theorem respIff_runFrom (es : List Event) (s : ServerState)
    (hes : ∀ e ∈ es, RespCarried e) (h : RespIffCompleted s) :
    RespIffCompleted (runFrom s es).1 := by
  induction es generalizing s with
  | nil => exact h
  | cons e es ih =>
      exact ih (step s e).1 (fun e2 he2 => hes e2 (List.mem_cons_of_mem _ he2))
        (respIff_step s e (hes e (List.mem_cons_self _ _)) h)

theorem respIff_run (es : List Event) (hes : ∀ e ∈ es, RespCarried e) :
    RespIffCompleted (run es).1 :=
  respIff_runFrom es initState hes (by intro kv hkv; simp [initState] at hkv)

/-! ### Role-independence helpers -/

/-- The same hub state with the classification tag of one connection
overridden — used to express that message handling never consults
`ws.clientType`. -/
def withClientType (s : ServerState) (cid : Nat) (ty : Option String) :
    ServerState :=
  { s with
    conns := updateConn cid (fun c => { c with clientType := ty }) s.conns }

theorem connOpen_withClientType (s : ServerState) (cid : Nat)
    (ty : Option String) (x : Nat) :
    connOpen (withClientType s cid ty) x = connOpen s x :=
  connOpenL_updateConn cid x (fun c => { c with clientType := ty })
    (fun _ => rfl) s.conns

theorem getConn_withClientType (s : ServerState) (cid : Nat)
    (ty : Option String) (x : Nat) :
    getConn (withClientType s cid ty) x =
      (getConn s x).map
        (fun c => if c.id = cid then { c with clientType := ty } else c) :=
  findConn_updateConn cid x (fun c => { c with clientType := ty })
    (fun _ => rfl) s.conns

theorem connAgentId_withClientType (s : ServerState) (cid : Nat)
    (ty : Option String) (x : Nat) :
    connAgentId (withClientType s cid ty) x = connAgentId s x := by
  rw [connAgentId, getConn_withClientType, connAgentId]
  cases getConn s x with
  | none => rfl
  | some c => by_cases h : c.id = cid <;> simp [h]

theorem withClientType_agents (s : ServerState) (cid : Nat) (ty : Option String) :
    (withClientType s cid ty).agents = s.agents := rfl

theorem withClientType_humanRequests (s : ServerState) (cid : Nat) (ty : Option String) :
    (withClientType s cid ty).humanRequests = s.humanRequests := rfl

theorem withClientType_guiClients (s : ServerState) (cid : Nat) (ty : Option String) :
    (withClientType s cid ty).guiClients = s.guiClients := rfl

theorem withClientType_nextId (s : ServerState) (cid : Nat) (ty : Option String) :
    (withClientType s cid ty).nextId = s.nextId := rfl

theorem withClientType_conns (s : ServerState) (cid : Nat) (ty : Option String) :
    (withClientType s cid ty).conns =
      updateConn cid (fun c => { c with clientType := ty }) s.conns := rfl

theorem connOpenL_setTy (ty : Option String) (cid x : Nat) (l : List Conn) :
    connOpenL (updateConn cid (fun c => { c with clientType := ty }) l) x =
      connOpenL l x :=
  connOpenL_updateConn cid x (fun c => { c with clientType := ty }) (fun _ => rfl) l

theorem connOpenL_setGuiTag (cid x : Nat) (l : List Conn) :
    connOpenL (updateConn cid (fun c => { c with clientType := some "gui" }) l) x =
      connOpenL l x :=
  connOpenL_updateConn cid x (fun c => { c with clientType := some "gui" }) (fun _ => rfl) l

theorem connOpenL_setAgentTag (aid : EntityId) (cid x : Nat) (l : List Conn) :
    connOpenL
        (updateConn cid
          (fun c => { c with clientType := some "agent", agentId := some aid }) l) x =
      connOpenL l x :=
  connOpenL_updateConn cid x
    (fun c => { c with clientType := some "agent", agentId := some aid })
    (fun _ => rfl) l

/-! ### Client-list lemma -/

theorem find?_isSome_of_mem {α : Type} {p : α → Bool} {l : List α} {a : α}
    (ha : a ∈ l) (hp : p a = true) : (l.find? p).isSome = true := by
  induction l with
  | nil => cases ha
  | cons b bs ih =>
      cases hpb : p b
      · have hmem : a ∈ bs := by
          rcases List.mem_cons.mp ha with h | h
          · subst h; rw [hp] at hpb; cases hpb
          · exact h
        rw [List.find?_cons_of_neg _ (by simp [hpb])]
        exact ih hmem
      · rw [List.find?_cons_of_pos _ hpb]
        rfl

theorem flatten_map_singleton {α β : Type} (l : List α) (f : α → β) :
    (l.map (fun a => [f a])).flatten = l.map f := by
  induction l <;> simp_all

/-- The replay loop of `registerGUI` against an open socket sends one message
per ledger entry, in ledger order. -/
theorem replay_out (t : ServerState) (cid : Nat) (hopen : connOpen t cid = true)
    (agents : List (EntityId × Agent)) (reqs : List (EntityId × HIRequest)) :
    ((agents.map (fun kv => sendToClient t cid (Payload.agentConnected kv.2))).flatten
        ++ (reqs.map (fun kv => sendToClient t cid (Payload.humanInputRequest kv.2))).flatten) =
      agents.map (fun kv => OutMsg.mk cid (Payload.agentConnected kv.2)) ++
        reqs.map (fun kv => OutMsg.mk cid (Payload.humanInputRequest kv.2)) := by
  have hsend : ∀ p, sendToClient t cid p = [OutMsg.mk cid p] := fun p => by
    simp [sendToClient, hopen]
  simp only [hsend, flatten_map_singleton]

/-- Recognizer for `human-input-request` events in an outbound stream. -/
def isHIRpayload : OutMsg → Bool
  | ⟨_, Payload.humanInputRequest _⟩ => true
  | _ => false

/-! ## The claims -/

/-- Events of the C1 counterexample: an observer registers on connection 0,
then connection 1 — never classified, with no Agent record — sends a
`human-input-request`. -/
def cex1events : List Event :=
  [Event.connect 0, Event.message 0 InMsg.registerGui "t0",
    Event.connect 1,
    Event.message 1 (InMsg.humanInputRequest none none none none) "t1"]

/-- C1 counterexample: a `human-input-request` from a connection with no
associated Agent does NOT fail silently — a request record is created
(with `agent_name = "Unknown Agent"`) and a `human-input-request` event is
broadcast to the registered observer, contradicting the claim that no record
is created and nothing is broadcast. -/
theorem claim1_counterexample :
    (run cex1events).1.humanRequests.length = 1 ∧
    ((run cex1events).2.map (fun o => o.dest)) = [0] ∧
    ((run cex1events).1.humanRequests.map (fun kv => kv.2.agent_name)) =
      ["Unknown Agent"] :=
  ⟨rfl, rfl, rfl⟩

/-- Events of the C2 counterexample: connection 0 sends a
`human-input-request` before any classification message. -/
def cex2events : List Event :=
  [Event.connect 0, Event.message 0 (InMsg.humanInputRequest none none none none) "t"]

/-- C2 counterexample: a message arriving before the connection is classified
is NOT dropped — the hub state changes (a request record is created),
contradicting the claim that pre-classification messages leave hub state
unchanged. -/
theorem claim2_counterexample :
    (run cex2events).1.humanRequests.length = 1 :=
  rfl

/-- Events of the C4 counterexample: an agent registers (id `uuid 0`),
submits a request (id `uuid 1`), and then a `human-input-response` that
carries no `response` field resolves it. -/
def cex4events : List Event :=
  [Event.connect 0,
    Event.message 0 (InMsg.registerAgent (some "A")) "t0",
    Event.message 0
      (InMsg.humanInputRequest (some "approval") (some "go?") (some "High") (some [])) "t1",
    Event.message 0 (InMsg.humanInputResponse (some (EntityId.uuid 1)) none) "t2"]

/-- C4 counterexample: a reachable hub state holds a request whose status is
Completed while its `response` field is not set — the resolving
`human-input-response` message omitted `response`, and the hub stores
`undefined` — contradicting the claimed "response set iff Completed"
invariant. -/
theorem claim4_counterexample :
    ((mapGet (EntityId.uuid 1) (run cex4events).1.humanRequests).map
      (fun r => (r.status, r.response))) = some ("Completed", none) :=
  rfl

/-- C6 counterexample: after the first demo timer the hub holds the demo
agent record while the connection registry is empty — an Agent record that
maps to no live connection at all, contradicting the claimed "each Agent
record maps to exactly one live connection" invariant. -/
theorem claim6_counterexample :
    ((run [Event.demo1 "t0"]).1.agents.map (fun kv => kv.1)) =
      [EntityId.demoAgent] ∧
    (run [Event.demo1 "t0"]).1.conns = [] :=
  ⟨rfl, rfl⟩

/-- C9 counterexample: a probe attempt that times out — no handshake was ever
completed, so no established connection existed — still schedules a rescan
after 3000 ms, because the timeout path calls `ws.close()` and the close
handler (installed before the socket ever opened) unconditionally schedules
`connectToWebSocket`.  This contradicts the claim that a new scan is
scheduled only when an established connection later closes. -/
theorem claim9_counterexample :
    (tryConnectEffects AttemptOutcome.timedOut).resolved = false ∧
    (tryConnectEffects AttemptOutcome.timedOut).rescanDelays = [3000] :=
  ⟨rfl, rfl⟩

/-- C5: the observer-initiated `clearHumanRequests` (once confirmed) empties
the observer's request ledger entirely and sends no protocol message — the
only effect beyond the empty list is the re-render. -/
theorem claim5_theorem (s : AppState) :
    (clearHumanRequests s true).1.humanRequests = [] ∧
    (clearHumanRequests s true).2 = [] :=
  ⟨rfl, rfl⟩

/-- C8: content append is idempotent on `id` — appending an item whose id is
already present in the history leaves the client state (hence the history
length and the latest pointer) completely unchanged. -/
theorem claim8_theorem (s : AppState) (fresh i : String) (item : ContentItem)
    (hid : item.id = some i) (hne : i ≠ "")
    (hmem : ∃ c ∈ s.contentItems, c.id = some i) :
    addContentItem s fresh item = s ∧
    (addContentItem s fresh item).contentItems.length = s.contentItems.length ∧
    (addContentItem s fresh item).latestContent = s.latestContent := by
  have hfalsy : isFalsyId item.id = false := by
    rw [hid]; simp [isFalsyId, hne]
  have heq : addContentItem s fresh item = s := by
    unfold addContentItem
    simp only [hfalsy, Bool.false_eq_true, if_false]
    obtain ⟨c, hcmem, hcid⟩ := hmem
    have hsome : (s.contentItems.find? (fun c2 => c2.id == item.id)).isSome = true :=
      find?_isSome_of_mem hcmem (by rw [hcid, hid]; simp)
    rcases hfind : s.contentItems.find? (fun c2 => c2.id == item.id) with _ | c2
    · rw [hfind] at hsome; cases hsome
    · rw [hfind]
  exact ⟨heq, by rw [heq], by rw [heq]⟩

/-- A stored content item for the C8 witness. -/
def c8stored : ContentItem :=
  { id := some "c1", type := "markdown", content := "x", language := none
    caption := none, title := "T", agent_id := none, agent_name := none
    timestamp := "t" }

/-- A duplicate-id incoming item for the C8 witness. -/
def c8dup : ContentItem :=
  { id := some "c1", type := "markdown", content := "different", language := none
    caption := none, title := "T2", agent_id := none, agent_name := none
    timestamp := "t2" }

/-- The client state of the C8 witness: a one-item history. -/
def c8state : AppState :=
  { agents := [], humanRequests := [], contentItems := [c8stored]
    latestContent := some c8stored, currentContentIndex := 0
    currentRequestId := none }

/-- C8 witness: a concrete duplicate append leaves the one-item history and
its latest pointer untouched. -/
theorem claim8_witness : addContentItem c8state "fresh-token" c8dup = c8state :=
  (claim8_theorem c8state "fresh-token" "c1" c8dup rfl (by decide)
    ⟨c8stored, List.mem_cons_self _ _, rfl⟩).1

/-- C10: when a `human-input-request` event's id already occurs in the
observer's local request list, `addRequest` leaves the client state
completely unchanged (the incoming fields are not applied), and `addAgent`
deduplicates the local agent list by id in the same way. -/
theorem claim10_theorem (s : AppState) (r : HIRequest) (a : Agent)
    (hr : ∃ x ∈ s.humanRequests, x.id = r.id)
    (ha : ∃ y ∈ s.agents, y.id = a.id) :
    addRequest s r = s ∧ addAgent s a = s := by
  constructor
  · unfold addRequest
    obtain ⟨x, hx, hxid⟩ := hr
    have hsome : (s.humanRequests.find? (fun x2 => x2.id == r.id)).isSome = true :=
      find?_isSome_of_mem hx (by rw [hxid]; simp)
    rcases hfind : s.humanRequests.find? (fun x2 => x2.id == r.id) with _ | x2
    · rw [hfind] at hsome; cases hsome
    · rw [hfind]
  · unfold addAgent
    obtain ⟨y, hy, hyid⟩ := ha
    have hsome : (s.agents.find? (fun y2 => y2.id == a.id)).isSome = true :=
      find?_isSome_of_mem hy (by rw [hyid]; simp)
    rcases hfind : s.agents.find? (fun y2 => y2.id == a.id) with _ | y2
    · rw [hfind] at hsome; cases hsome
    · rw [hfind]

/-- A pending request stored by the C10 witness state. -/
def c10req : HIRequest :=
  { id := EntityId.uuid 0, agent_id := some (EntityId.uuid 1), agent_name := "A"
    request_type := "input", message := "m", priority := "High"
    status := "Pending", timestamp := "t", options := [], response := none
    agentWs := some 3 }

/-- An agent record stored by the C10 witness state. -/
def c10agent : Agent :=
  { id := EntityId.uuid 1, name := "A", status := "Connected", timestamp := "t" }

/-- The observer state of the C10 witness. -/
def c10state : AppState :=
  { agents := [c10agent], humanRequests := [c10req], contentItems := []
    latestContent := none, currentContentIndex := -1, currentRequestId := none }

/-- C10 witness: re-delivering the request with a changed status and response,
and the agent with a changed status, leaves the client state untouched. -/
theorem claim10_witness :
    addRequest c10state { c10req with status := "Completed", response := some "done" } = c10state ∧
    addAgent c10state { c10agent with status := "Active" } = c10state :=
  claim10_theorem c10state
    { c10req with status := "Completed", response := some "done" }
    { c10agent with status := "Active" }
    ⟨c10req, List.mem_cons_self _ _, rfl⟩
    ⟨c10agent, List.mem_cons_self _ _, rfl⟩

/-- The request record `handleHumanInputRequest` builds when the submitting
connection has no associated Agent record: denormalized name falls back to
`"Unknown Agent"`, status starts Pending, and the originating socket is
remembered. -/
def unknownAgentRequest (aid : Option EntityId) (rt msg pr : Option String)
    (opts : Option (List String)) (now : String) (fresh cid : Nat) : HIRequest :=
  { id := EntityId.uuid fresh, agent_id := aid, agent_name := "Unknown Agent"
    request_type := jsOr rt "input", message := jsOr msg "Human input required"
    priority := jsOr pr "Medium", status := "Pending", timestamp := now
    options := opts.getD [], response := none, agentWs := some cid }

/-- C1 (amended): a `human-input-request` from a connection with no
associated Agent record does NOT fail silently — the hub stores a Pending
request whose `agent_name` is `"Unknown Agent"` and broadcasts it to every
open registered observer. -/
theorem claim1_theorem (s : ServerState) (cid : Nat) (c : Conn)
    (rt msg pr : Option String) (opts : Option (List String)) (now : String)
    (hconn : getConn s cid = some c)
    (hnoagent : c.agentId.bind (fun a => mapGet a s.agents) = none) :
    (step s (Event.message cid (InMsg.humanInputRequest rt msg pr opts) now)).1.humanRequests =
      mapSet (EntityId.uuid s.nextId)
        (unknownAgentRequest c.agentId rt msg pr opts now s.nextId cid)
        s.humanRequests ∧
    (step s (Event.message cid (InMsg.humanInputRequest rt msg pr opts) now)).2 =
      (s.guiClients.filter (fun g => connOpen s g)).map
        (fun g => OutMsg.mk g (Payload.humanInputRequest
          (unknownAgentRequest c.agentId rt msg pr opts now s.nextId cid))) := by
  have hopen : connOpen s cid = true := by
    unfold connOpen connOpenL
    rw [show findConn s.conns cid = some c from hconn]
    rfl
  have haid : connAgentId s cid = c.agentId := by
    unfold connAgentId
    rw [hconn]
    rfl
  have hstep : step s (Event.message cid (InMsg.humanInputRequest rt msg pr opts) now) =
      handleHumanInputRequest s cid rt msg pr opts now := by
    simp [step, handleMessage, hopen]
  constructor
  · rw [hstep]
    unfold handleHumanInputRequest unknownAgentRequest
    simp only [haid, hnoagent]
  · rw [hstep]
    unfold handleHumanInputRequest unknownAgentRequest
    simp only [haid, hnoagent]
    rw [broadcastToGUIs_eq]
    rfl

/-- The hub state of the C1 witness: an observer on connection 0 and an
unclassified connection 1. -/
def c1state : ServerState :=
  { agents := [], humanRequests := [], guiClients := [0]
    conns := [Conn.mk 0 (some "gui") none, Conn.mk 1 none none]
    nextId := 0, demoStage := 0 }

/-- C1 witness: at the concrete state, the agent-less submission stores the
`"Unknown Agent"` request and broadcasts it. -/
theorem claim1_witness :
    (step c1state (Event.message 1 (InMsg.humanInputRequest none none none none) "t1")).1.humanRequests =
      mapSet (EntityId.uuid c1state.nextId)
        (unknownAgentRequest (Conn.mk 1 none none).agentId none none none none "t1" c1state.nextId 1)
        c1state.humanRequests ∧
    (step c1state (Event.message 1 (InMsg.humanInputRequest none none none none) "t1")).2 =
      (c1state.guiClients.filter (fun g => connOpen c1state g)).map
        (fun g => OutMsg.mk g (Payload.humanInputRequest
          (unknownAgentRequest (Conn.mk 1 none none).agentId none none none none "t1" c1state.nextId 1))) :=
  claim1_theorem c1state 1 (Conn.mk 1 none none) none none none none "t1" rfl rfl

/-- C3: resolving an existing, still-Pending request marks it Completed with
the response stored; the point-to-point `human-input-response` goes to the
originating agent socket exactly when that socket is still open (silently
skipped otherwise), and the now-Completed request is re-broadcast to every
open registered observer. -/
theorem claim3_theorem (s : ServerState) (cid : Nat) (c : Conn)
    (rid : EntityId) (req : HIRequest) (resp now : String)
    (hconn : getConn s cid = some c)
    (hreq : mapGet rid s.humanRequests = some req)
    (_hpend : req.status = "Pending") :
    mapGet rid
        (step s (Event.message cid (InMsg.humanInputResponse (some rid) (some resp)) now)).1.humanRequests =
      some { req with status := "Completed", response := some resp } ∧
    (step s (Event.message cid (InMsg.humanInputResponse (some rid) (some resp)) now)).2 =
      (match req.agentWs with
        | some w =>
            if connOpen s w then
              [OutMsg.mk w (Payload.humanInputResponse rid (some resp))]
            else []
        | none => []) ++
      (s.guiClients.filter (fun g => connOpen s g)).map
        (fun g => OutMsg.mk g (Payload.humanInputRequest
          { req with status := "Completed", response := some resp })) := by
  have hopen : connOpen s cid = true := by
    unfold connOpen connOpenL
    rw [show findConn s.conns cid = some c from hconn]
    rfl
  have hstep : step s (Event.message cid (InMsg.humanInputResponse (some rid) (some resp)) now) =
      handleHumanInputResponse s (some rid) (some resp) := by
    simp [step, handleMessage, hopen]
  constructor
  · rw [hstep]
    unfold handleHumanInputResponse
    simp only []
    rw [hreq]
    simp only []
    exact mapGet_mapSet_self _ _ _
  · rw [hstep]
    unfold handleHumanInputResponse
    simp only []
    rw [hreq]
    simp only []
    rw [broadcastToGUIs_eq]
    rfl

/-- The agent record of the C3 witness. -/
def c3agent : Agent :=
  { id := EntityId.uuid 0, name := "A", status := "Connected", timestamp := "t" }

/-- The pending request of the C3 witness, originating from connection 1. -/
def c3req : HIRequest :=
  { id := EntityId.uuid 1, agent_id := some (EntityId.uuid 0), agent_name := "A"
    request_type := "approval", message := "go?", priority := "High"
    status := "Pending", timestamp := "t", options := [], response := none
    agentWs := some 1 }

/-- The hub state of the C3 witness: agent on connection 1, observer on
connection 2, one pending request. -/
def c3state : ServerState :=
  { agents := [(EntityId.uuid 0, c3agent)]
    humanRequests := [(EntityId.uuid 1, c3req)]
    guiClients := [2]
    conns := [Conn.mk 1 (some "agent") (some (EntityId.uuid 0)), Conn.mk 2 (some "gui") none]
    nextId := 2, demoStage := 2 }

/-- C3 witness: resolving the concrete pending request completes it, sends
the point-to-point response to the still-open agent socket, and re-broadcasts
to the observer. -/
theorem claim3_witness :
    mapGet (EntityId.uuid 1)
        (step c3state (Event.message 2 (InMsg.humanInputResponse (some (EntityId.uuid 1)) (some "Yes")) "t9")).1.humanRequests =
      some { c3req with status := "Completed", response := some "Yes" } ∧
    (step c3state (Event.message 2 (InMsg.humanInputResponse (some (EntityId.uuid 1)) (some "Yes")) "t9")).2 =
      (match c3req.agentWs with
        | some w =>
            if connOpen c3state w then
              [OutMsg.mk w (Payload.humanInputResponse (EntityId.uuid 1) (some "Yes"))]
            else []
        | none => []) ++
      (c3state.guiClients.filter (fun g => connOpen c3state g)).map
        (fun g => OutMsg.mk g (Payload.humanInputRequest
          { c3req with status := "Completed", response := some "Yes" })) :=
  claim3_theorem c3state 2 (Conn.mk 2 (some "gui") none) (EntityId.uuid 1) c3req "Yes" "t9"
    rfl rfl rfl

/-- C6 (amended): when a live connection tagged `agent` with a registered
agent record closes, the hub deletes that agent record, removes the
connection, and broadcasts `agent-disconnected` carrying the agent id to
every other open registered observer — but an Agent record need not map to a
live connection (the demo agent has none, and a connection that re-registers
strands its earlier record). -/
theorem claim6_theorem (s : ServerState) (cid : Nat) (c : Conn)
    (aid : EntityId) (a : Agent)
    (hconn : getConn s cid = some c)
    (hty : c.clientType = some "agent")
    (haid : c.agentId = some aid)
    (hagent : mapGet aid s.agents = some a) :
    (step s (Event.disconnect cid)).1.agents = mapDelete aid s.agents ∧
    (step s (Event.disconnect cid)).1.conns = removeConnById s.conns cid ∧
    (∀ o ∈ (step s (Event.disconnect cid)).2, o.payload = Payload.agentDisconnected aid) ∧
    (∀ g ∈ s.guiClients, g ≠ cid → connOpen s g = true →
      OutMsg.mk g (Payload.agentDisconnected aid) ∈ (step s (Event.disconnect cid)).2) := by
  have hstep : step s (Event.disconnect cid) =
      ({ s with conns := removeConnById s.conns cid, agents := mapDelete aid s.agents },
        broadcastToGUIs
          { s with conns := removeConnById s.conns cid, agents := mapDelete aid s.agents }
          (Payload.agentDisconnected aid)) := by
    simp only [step, handleDisconnection]
    rw [show getConn s cid = some c from hconn]
    simp only [hty, if_true, haid]
    rw [hagent]
    rw [if_neg (by decide : ¬ ((some "agent" : Option String) = some "gui"))]
  refine ⟨by rw [hstep], by rw [hstep], ?_, ?_⟩
  · intro o ho
    rw [hstep, broadcastToGUIs_eq] at ho
    obtain ⟨g, _, rfl⟩ := List.mem_map.mp ho
    rfl
  · intro g hg hgne hco
    rw [hstep, broadcastToGUIs_eq]
    refine List.mem_map.mpr ⟨g, List.mem_filter.mpr ⟨hg, ?_⟩, rfl⟩
    show connOpenL (removeConnById s.conns cid) g = true
    rw [connOpenL_removeConn hgne]
    exact hco

/-- The agent record of the C6 witness. -/
def c6agent : Agent :=
  { id := EntityId.uuid 0, name := "A", status := "Connected", timestamp := "t" }

/-- The hub state of the C6 witness: agent on connection 1, observer on
connection 2. -/
def c6state : ServerState :=
  { agents := [(EntityId.uuid 0, c6agent)], humanRequests := []
    guiClients := [2]
    conns := [Conn.mk 1 (some "agent") (some (EntityId.uuid 0)), Conn.mk 2 (some "gui") none]
    nextId := 1, demoStage := 2 }

/-- C6 witness: closing the concrete agent connection deletes the record,
removes the connection, and every send is the `agent-disconnected` broadcast,
delivered to the open observer. -/
theorem claim6_witness :
    (step c6state (Event.disconnect 1)).1.agents = mapDelete (EntityId.uuid 0) c6state.agents ∧
    (step c6state (Event.disconnect 1)).1.conns = removeConnById c6state.conns 1 ∧
    (∀ o ∈ (step c6state (Event.disconnect 1)).2,
      o.payload = Payload.agentDisconnected (EntityId.uuid 0)) ∧
    (∀ g ∈ c6state.guiClients, g ≠ 1 → connOpen c6state g = true →
      OutMsg.mk g (Payload.agentDisconnected (EntityId.uuid 0)) ∈
        (step c6state (Event.disconnect 1)).2) :=
  claim6_theorem c6state 1 (Conn.mk 1 (some "agent") (some (EntityId.uuid 0)))
    (EntityId.uuid 0) c6agent rfl rfl rfl rfl

/-- C7: registering an observer on a live socket replays the full current
agent set and then exactly K = (number of stored requests) replay
`human-input-request` events — the same event types as live updates — and
these replay sends precede everything emitted by any later event. -/
theorem claim7_theorem (s : ServerState) (cid : Nat) (c : Conn) (now : String)
    (rest : List Event)
    (hconn : getConn s cid = some c) :
    (step s (Event.message cid InMsg.registerGui now)).2 =
      s.agents.map (fun kv => OutMsg.mk cid (Payload.agentConnected kv.2)) ++
        s.humanRequests.map (fun kv => OutMsg.mk cid (Payload.humanInputRequest kv.2)) ∧
    ((step s (Event.message cid InMsg.registerGui now)).2.filter isHIRpayload).length =
      s.humanRequests.length ∧
    (runFrom s (Event.message cid InMsg.registerGui now :: rest)).2 =
      (step s (Event.message cid InMsg.registerGui now)).2 ++
        (runFrom (step s (Event.message cid InMsg.registerGui now)).1 rest).2 := by
  have hopen : connOpen s cid = true := by
    unfold connOpen connOpenL
    rw [show findConn s.conns cid = some c from hconn]
    rfl
  have hstep : step s (Event.message cid InMsg.registerGui now) = registerGUI s cid := by
    simp [step, handleMessage, hopen]
  have hopen1 : connOpen
      { s with
        conns := updateConn cid (fun c2 => { c2 with clientType := some "gui" }) s.conns
        guiClients := if cid ∈ s.guiClients then s.guiClients else s.guiClients ++ [cid] }
      cid = true := by
    show connOpenL (updateConn cid (fun c2 => { c2 with clientType := some "gui" }) s.conns) cid = true
    rw [connOpenL_updateConn cid cid (fun c2 => { c2 with clientType := some "gui" }) (fun _ => rfl)]
    exact hopen
  have hout : (registerGUI s cid).2 =
      s.agents.map (fun kv => OutMsg.mk cid (Payload.agentConnected kv.2)) ++
        s.humanRequests.map (fun kv => OutMsg.mk cid (Payload.humanInputRequest kv.2)) := by
    unfold registerGUI
    simp only []
    rw [replay_out _ cid hopen1]
  refine ⟨by rw [hstep]; exact hout, ?_, rfl⟩
  rw [hstep, hout, List.filter_append]
  have h1 : (s.agents.map (fun kv => OutMsg.mk cid (Payload.agentConnected kv.2))).filter isHIRpayload = [] := by
    rw [List.filter_eq_nil_iff]
    intro o ho
    obtain ⟨kv, _, rfl⟩ := List.mem_map.mp ho
    simp [isHIRpayload]
  have h2 : (s.humanRequests.map (fun kv => OutMsg.mk cid (Payload.humanInputRequest kv.2))).filter isHIRpayload =
      s.humanRequests.map (fun kv => OutMsg.mk cid (Payload.humanInputRequest kv.2)) := by
    rw [List.filter_eq_self]
    intro o ho
    obtain ⟨kv, _, rfl⟩ := List.mem_map.mp ho
    simp [isHIRpayload]
  rw [h1, h2]
  simp

/-- The agent record of the C7 witness. -/
def c7agent : Agent :=
  { id := EntityId.uuid 0, name := "A", status := "Active", timestamp := "t" }

/-- First stored request of the C7 witness. -/
def c7req1 : HIRequest :=
  { id := EntityId.uuid 1, agent_id := some (EntityId.uuid 0), agent_name := "A"
    request_type := "input", message := "m1", priority := "Low"
    status := "Pending", timestamp := "t1", options := [], response := none
    agentWs := some 1 }

/-- Second stored request of the C7 witness. -/
def c7req2 : HIRequest :=
  { id := EntityId.uuid 2, agent_id := some (EntityId.uuid 0), agent_name := "A"
    request_type := "approval", message := "m2", priority := "High"
    status := "Completed", timestamp := "t2", options := ["y"], response := some "y"
    agentWs := some 1 }

/-- The hub state of the C7 witness: one agent, two stored requests, and a
fresh unclassified connection 5 about to register as observer. -/
def c7state : ServerState :=
  { agents := [(EntityId.uuid 0, c7agent)]
    humanRequests := [(EntityId.uuid 1, c7req1), (EntityId.uuid 2, c7req2)]
    guiClients := []
    conns := [Conn.mk 1 (some "agent") (some (EntityId.uuid 0)), Conn.mk 5 none none]
    nextId := 3, demoStage := 2 }

/-- C7 witness: registering connection 5 as observer replays the one agent
and then exactly the two stored requests, before anything later. -/
theorem claim7_witness :
    (step c7state (Event.message 5 InMsg.registerGui "t9")).2 =
      c7state.agents.map (fun kv => OutMsg.mk 5 (Payload.agentConnected kv.2)) ++
        c7state.humanRequests.map (fun kv => OutMsg.mk 5 (Payload.humanInputRequest kv.2)) ∧
    ((step c7state (Event.message 5 InMsg.registerGui "t9")).2.filter isHIRpayload).length =
      c7state.humanRequests.length ∧
    (runFrom c7state (Event.message 5 InMsg.registerGui "t9" :: [])).2 =
      (step c7state (Event.message 5 InMsg.registerGui "t9")).2 ++
        (runFrom (step c7state (Event.message 5 InMsg.registerGui "t9")).1 []).2 :=
  claim7_theorem c7state 5 (Conn.mk 5 none none) "t9" [] rfl

/-- The replay pair of sends is insensitive to anything but the ledgers and
the target socket's openness. -/
theorem replayPair_congr (t1 t2 : ServerState) (cid : Nat)
    (hag : t1.agents = t2.agents) (hhr : t1.humanRequests = t2.humanRequests)
    (hco : connOpen t1 cid = connOpen t2 cid) :
    ((t1.agents.map (fun kv => sendToClient t1 cid (Payload.agentConnected kv.2))).flatten
        ++ (t1.humanRequests.map (fun kv => sendToClient t1 cid (Payload.humanInputRequest kv.2))).flatten) =
      ((t2.agents.map (fun kv => sendToClient t2 cid (Payload.agentConnected kv.2))).flatten
        ++ (t2.humanRequests.map (fun kv => sendToClient t2 cid (Payload.humanInputRequest kv.2))).flatten) := by
  have hsend : ∀ p, sendToClient t1 cid p = sendToClient t2 cid p := fun p => by
    simp [sendToClient, hco]
  rw [hag, hhr]
  simp only [hsend]

/-- C2 (amended): only messages of unknown type are logged and dropped (hub
state unchanged, nothing sent, no error back to the sender); every known
message type is dispatched on the type alone — overriding the sending
connection's classification tag changes neither the ledgers, the fan-out
set, the id counter, nor the emitted messages. -/
theorem claim2_theorem (s : ServerState) (cid : Nat) (ty : Option String)
    (m : InMsg) (t now : String) :
    step s (Event.message cid (InMsg.unknown t) now) = (s, []) ∧
    ((step (withClientType s cid ty) (Event.message cid m now)).1.agents =
        (step s (Event.message cid m now)).1.agents ∧
      (step (withClientType s cid ty) (Event.message cid m now)).1.humanRequests =
        (step s (Event.message cid m now)).1.humanRequests ∧
      (step (withClientType s cid ty) (Event.message cid m now)).1.guiClients =
        (step s (Event.message cid m now)).1.guiClients ∧
      (step (withClientType s cid ty) (Event.message cid m now)).1.nextId =
        (step s (Event.message cid m now)).1.nextId ∧
      (step (withClientType s cid ty) (Event.message cid m now)).2 =
        (step s (Event.message cid m now)).2) := by
  constructor
  · by_cases h : connOpen s cid <;> simp [step, h, handleMessage]
  · by_cases hco : connOpen s cid
    case neg =>
      have hcf : connOpen s cid = false := by
        cases hb : connOpen s cid
        · rfl
        · exact absurd hb hco
      have hcf2 : connOpen (withClientType s cid ty) cid = false := by
        rw [connOpen_withClientType]; exact hcf
      simp only [step, hcf, hcf2, Bool.false_eq_true, if_false]
      trivial
    case pos =>
      have hco2 : connOpen (withClientType s cid ty) cid = true := by
        rw [connOpen_withClientType]; exact hco
      have hstepL : step (withClientType s cid ty) (Event.message cid m now) =
          handleMessage (withClientType s cid ty) cid m now := by
        simp [step, hco2]
      have hstepR : step s (Event.message cid m now) = handleMessage s cid m now := by
        simp [step, hco]
      rw [hstepL, hstepR]
      cases m with
      | registerGui =>
          unfold handleMessage registerGUI
          simp only [withClientType_agents, withClientType_humanRequests,
            withClientType_guiClients, withClientType_nextId]
          refine ⟨by trivial, by trivial, by trivial, by trivial, ?_⟩
          apply replayPair_congr
          · rfl
          · rfl
          · show connOpenL _ cid = connOpenL _ cid
            simp only []
            rw [withClientType_conns, connOpenL_setGuiTag, connOpenL_setTy, connOpenL_setGuiTag]
      | registerAgent name =>
          unfold handleMessage registerAgent
          simp only [withClientType_agents, withClientType_humanRequests,
            withClientType_guiClients, withClientType_nextId]
          refine ⟨by trivial, by trivial, by trivial, by trivial, ?_⟩
          apply broadcast_congr
          · rfl
          · intro x
            show connOpenL _ x = connOpenL _ x
            simp only []
            rw [withClientType_conns, connOpenL_setAgentTag, connOpenL_setTy, connOpenL_setAgentTag]
      | humanInputRequest rt msg pr opts =>
          unfold handleMessage handleHumanInputRequest
          simp only [connAgentId_withClientType, withClientType_agents,
            withClientType_humanRequests, withClientType_guiClients, withClientType_nextId]
          refine ⟨by trivial, by trivial, by trivial, by trivial, ?_⟩
          apply broadcast_congr
          · rfl
          · intro x
            show connOpenL _ x = connOpenL _ x
            simp only []
            rw [withClientType_conns, connOpenL_setTy]
      | humanInputResponse rid resp =>
          unfold handleMessage handleHumanInputResponse
          simp only [withClientType_humanRequests]
          rcases rid with _ | rid2
          · trivial
          · rcases hr : mapGet rid2 s.humanRequests with _ | req
            · simp only [hr]
              trivial
            · simp only [hr]
              refine ⟨by trivial, by trivial, by trivial, by trivial, ?_⟩
              rcases haw : req.agentWs with _ | w
              · simp only [haw]
                apply broadcast_congr
                · rfl
                · intro x
                  show connOpenL _ x = connOpenL _ x
                  simp only []
                  rw [withClientType_conns, connOpenL_setTy]
              · simp only [haw]
                congr 1
                · apply sendToClient_congr
                  show connOpenL _ w = connOpenL _ w
                  simp only []
                  rw [withClientType_conns, connOpenL_setTy]
                · apply broadcast_congr
                  · rfl
                  · intro x
                    show connOpenL _ x = connOpenL _ x
                    simp only []
                    rw [withClientType_conns, connOpenL_setTy]
      | agentUpdate p =>
          unfold handleMessage handleAgentUpdate
          simp only [connAgentId_withClientType, withClientType_agents,
            withClientType_humanRequests, withClientType_guiClients, withClientType_nextId]
          rcases ha : connAgentId s cid with _ | aid
          · simp only [ha]
            trivial
          · simp only [ha]
            rcases hma : mapGet aid s.agents with _ | a
            · simp only [hma]
              trivial
            · simp only [hma]
              refine ⟨by trivial, by trivial, by trivial, by trivial, ?_⟩
              apply broadcast_congr
              · rfl
              · intro x
                show connOpenL _ x = connOpenL _ x
                simp only []
                rw [withClientType_conns, connOpenL_setTy]
      | unknown t2 =>
          trivial

/-- C4 (amended): in every reachable hub state a stored response implies a
Completed status and a request's status never reverts from Completed; and
when every `human-input-response` in the trace actually carries a response,
the full "response set iff Completed" equivalence holds.  (The unamended
iff fails when a resolution omits its `response` field.) -/
theorem claim4_theorem :
    (∀ es k r, mapGet k (run es).1.humanRequests = some r →
      r.response.isSome = true → r.status = "Completed") ∧
    (∀ es e k r r2, mapGet k (run es).1.humanRequests = some r →
      mapGet k (run (es ++ [e])).1.humanRequests = some r2 →
      r.status = "Completed" → r2.status = "Completed") ∧
    (∀ es, (∀ e ∈ es, RespCarried e) → ∀ k r,
      mapGet k (run es).1.humanRequests = some r →
      (r.response.isSome = true ↔ r.status = "Completed")) := by
  refine ⟨?_, ?_, ?_⟩
  · intro es k r hget hr
    exact (wfreq_run es).2.2 (k, r) (mapGet_mem hget) hr
  · intro es e k r r2 hget hget2 hc
    rw [run_append_single] at hget2
    exact mono_step (run es).1 e k r r2 (wfreq_run es) hget hget2 hc
  · intro es hes k r hget
    exact respIff_run es hes (k, r) (mapGet_mem hget)

/-- Events of the C4 witness: register, submit, resolve with `"ok"`. -/
def c4events : List Event :=
  [Event.connect 0,
    Event.message 0 (InMsg.registerAgent (some "A")) "t0",
    Event.message 0
      (InMsg.humanInputRequest (some "approval") (some "go?") (some "High") (some [])) "t1",
    Event.message 0 (InMsg.humanInputResponse (some (EntityId.uuid 1)) (some "ok")) "t2"]

/-- The resolved request the C4 witness trace produces. -/
def c4req : HIRequest :=
  { id := EntityId.uuid 1, agent_id := some (EntityId.uuid 0), agent_name := "A"
    request_type := "approval", message := "go?", priority := "High"
    status := "Completed", timestamp := "t1", options := []
    response := some "ok", agentWs := some 0 }

/-- C4 witness: on the concrete trace, the stored response forces Completed,
and re-resolving keeps the status Completed. -/
theorem claim4_witness :
    c4req.status = "Completed" ∧
    ({ c4req with response := some "again" } : HIRequest).status = "Completed" :=
  ⟨claim4_theorem.1 c4events (EntityId.uuid 1) c4req rfl rfl,
    claim4_theorem.2.1 c4events
      (Event.message 0 (InMsg.humanInputResponse (some (EntityId.uuid 1)) (some "again")) "t3")
      (EntityId.uuid 1) c4req { c4req with response := some "again" } rfl rfl rfl⟩

/-! ### Discovery-scan lemmas (C9) -/

theorem scanPorts_res (a : Nat → Bool) (l : List Nat) :
    (scanPorts a l).2 = l.find? a := by
  induction l with
  | nil => rfl
  | cons p ps ih =>
      cases hp : a p
      · rw [List.find?_cons_of_neg _ (by simp [hp])]
        simp [scanPorts, hp, ih]
      · rw [List.find?_cons_of_pos _ hp]
        simp [scanPorts, hp]

theorem scanPorts_probed_take (a : Nat → Bool) (l : List Nat) :
    ∃ k, (scanPorts a l).1 = l.take k := by
  induction l with
  | nil => exact ⟨0, rfl⟩
  | cons p ps ih =>
      cases hp : a p
      · obtain ⟨k, hk⟩ := ih
        exact ⟨k + 1, by simp [scanPorts, hp, hk]⟩
      · exact ⟨1, by simp [scanPorts, hp]⟩

theorem scanPorts_stop (a : Nat → Bool) (l : List Nat) (p : Nat)
    (h : (scanPorts a l).2 = some p) :
    ∃ pre, (scanPorts a l).1 = pre ++ [p] ∧ ∀ q ∈ pre, a q = false := by
  induction l with
  | nil => cases h
  | cons p2 ps ih =>
      cases hp : a p2
      · have h2 : (scanPorts a ps).2 = some p := by
          simpa [scanPorts, hp] using h
        obtain ⟨pre, hpre, hall⟩ := ih h2
        refine ⟨p2 :: pre, by simp [scanPorts, hp, hpre], ?_⟩
        intro q hq
        rcases List.mem_cons.mp hq with h3 | h3
        · rw [h3]; exact hp
        · exact hall q h3
      · have h2 : p2 = p := by
          simpa [scanPorts, hp] using h
        subst h2
        exact ⟨[], by simp [scanPorts, hp], by simp⟩

theorem scanPorts_none_all (a : Nat → Bool) (l : List Nat)
    (h : (scanPorts a l).2 = none) : (scanPorts a l).1 = l := by
  induction l with
  | nil => rfl
  | cons p ps ih =>
      cases hp : a p
      · have h2 : (scanPorts a ps).2 = none := by
          simpa [scanPorts, hp] using h
        simp [scanPorts, hp, ih h2]
      · exact absurd h (by simp [scanPorts, hp])

theorem scanPorts_exhaust (a : Nat → Bool) (l : List Nat) :
    (scanPorts a l).2 = none ↔ ∀ p ∈ l, a p = false := by
  rw [scanPorts_res, List.find?_eq_none]
  constructor
  · intro h p hp
    have := h p hp
    simpa using this
  · intro h p hp
    simp [h p hp]

/-- C9 (amended): discovery probes the fixed range 8080..8199 sequentially
in ascending order (the probed list is always a prefix of the range); the
first port whose attempt completes a handshake within the fixed 1000 ms
timeout is adopted (`register-gui` is then sent) and no later port is
probed; exhausting the range yields failure exactly when every port fails,
with all 120 ports probed; and the close handler schedules a rescan after a
fixed 3000 ms delay — on an established connection's close, but also on any
failed or timed-out probe attempt, not only when an established connection
closes. -/
theorem claim9_theorem (attempt : Nat → Bool) :
    (connectToWebSocket attempt).2 = portRange.find? attempt ∧
    (∃ k, (connectToWebSocket attempt).1 = portRange.take k) ∧
    (∀ p, (connectToWebSocket attempt).2 = some p →
      ∃ pre, (connectToWebSocket attempt).1 = pre ++ [p] ∧
        ∀ q ∈ pre, attempt q = false) ∧
    ((connectToWebSocket attempt).2 = none ↔ ∀ p ∈ portRange, attempt p = false) ∧
    ((connectToWebSocket attempt).2 = none →
      (connectToWebSocket attempt).1 = portRange) ∧
    (connectTimeoutMs = 1000 ∧ reconnectDelayMs = 3000) ∧
    ((tryConnectEffects AttemptOutcome.opened).resolved = true ∧
      (tryConnectEffects AttemptOutcome.opened).registerSent = true ∧
      (tryConnectEffects AttemptOutcome.opened).rescanDelays = []) ∧
    (onCloseRescan = [reconnectDelayMs] ∧
      ∀ o, o ≠ AttemptOutcome.opened →
        (tryConnectEffects o).rescanDelays = onCloseRescan) := by
  refine ⟨scanPorts_res attempt portRange, scanPorts_probed_take attempt portRange,
    fun p hp => scanPorts_stop attempt portRange p hp,
    scanPorts_exhaust attempt portRange,
    scanPorts_none_all attempt portRange,
    ⟨rfl, rfl⟩, ⟨rfl, rfl, rfl⟩, rfl, ?_⟩
  intro o ho
  cases o with
  | opened => exact absurd rfl ho
  | errored => rfl
  | timedOut => rfl

/-- The C9 witness's oracle: only port 8083 accepts. -/
def c9attempt : Nat → Bool := fun p => p == 8083

/-- C9 witness: with only 8083 accepting, the scan stops at 8083 having
probed only earlier (failing) ports. -/
theorem claim9_witness :
    ∃ pre, (connectToWebSocket c9attempt).1 = pre ++ [8083] ∧
      ∀ q ∈ pre, c9attempt q = false :=
  (claim9_theorem c9attempt).2.2.1 8083 (by rfl)

/-- C2 witness: a concrete unknown-typed message at the start state is
dropped without any state change or reply. -/
theorem claim2_witness :
    step initState (Event.message 0 (InMsg.unknown "bogus") "t") = (initState, []) :=
  (claim2_theorem initState 0 (some "gui") InMsg.registerGui "bogus" "t").1

/-- A pending request held by the C5 witness's observer state. -/
def c5req : HIRequest :=
  { id := EntityId.uuid 7, agent_id := some (EntityId.uuid 6), agent_name := "B"
    request_type := "input", message := "q", priority := "Low"
    status := "Pending", timestamp := "t", options := [], response := none
    agentWs := some 4 }

/-- The observer state of the C5 witness: one stored request. -/
def c5state : AppState :=
  { agents := [], humanRequests := [c5req], contentItems := []
    latestContent := none, currentContentIndex := -1
    currentRequestId := some (EntityId.uuid 7) }

/-- C5 witness: clearing the concrete one-request state empties the list and
sends nothing. -/
theorem claim5_witness :
    (clearHumanRequests c5state true).1.humanRequests = [] ∧
    (clearHumanRequests c5state true).2 = [] :=
  claim5_theorem c5state

end AgentHud
